import Mathlib

/-!
Verification of the Aether Quant streaming/aggregation core.

This file gives a shallow embedding of the tick-processing pipeline:

* the tick validator `cleanAndProcessTick` (src/services/tradierService.ts
  and src/unnamed/part_003, method `cleanAndProcessTick`),
* the window computation `calculateWindowLabel`
  (src/services/tradierService.ts, the implementation actually imported by
  src/App.tsx; the unimported duplicate in src/unnamed/part_003 differs in
  weights and lacks the clamp and is noted where relevant),
* the streaming buffer aggregator `handleNewTick` (src/App.tsx),
* the snapshot chunker of the polling fallback (src/unnamed/part_005,
  function `fetchData`),
* the synthetic tick constructors (src/App.tsx synthetic generator effect,
  src/unnamed/part_005 hftFeed construction).

JavaScript numbers are idealised as exact rationals; quantities produced by
Math.log10 and Math.sqrt live in the reals.  A raw quote field that JS would
coerce to NaN (absent or non-numeric) is modelled as Option.none; the JS
truthiness fallback x || d on numbers (which substitutes d exactly when x is
0 or NaN) is modelled by jsOr.  Identifiers and wall-clock timestamps, which
the source draws from crypto.randomUUID and Date.now, are externalised as
parameters.
-/

namespace AetherQuant

/-- Direction label of a window (src/types.ts, enum TickLabel). -/
inductive TickLabel where
  | UPWARDS
  | DOWNWARDS
  | STATIONARY
deriving DecidableEq, Repr

/-- A normalized quote observation (src/types.ts, interface Tick). -/
structure Tick where
  time : ℤ
  bid : ℚ
  ask : ℚ
  last : ℚ
  mid : ℚ
  volume : ℚ
  bidVolume : ℚ
  askVolume : ℚ
  spread : ℚ
deriving DecidableEq, Repr

/-- Placeholder tick used as the default value of list indexing
(JS indexing out of range would yield undefined; all uses below are
in range, so the default never matters). -/
def defaultTick : Tick :=
  { time := 0, bid := 0, ask := 0, last := 0, mid := 0
    volume := 0, bidVolume := 0, askVolume := 0, spread := 0 }

instance : Inhabited Tick := ⟨defaultTick⟩

/-- A raw quote record after JS numeric coercion: each price field holds
the result of parseFloat (none = NaN, i.e. absent or non-numeric), each
size field the result of parseInt applied to the field or the fallback
string for 0 (so absent sizes read as 0). -/
structure RawQuote where
  bid : Option ℚ
  ask : Option ℚ
  lastPrice : Option ℚ
  bidsize : Option ℕ
  asksize : Option ℕ

/-- JS truthiness fallback on numbers: x || d is d exactly when x is 0
(NaN is handled separately via Option). -/
def jsOr (x d : ℚ) : ℚ := if x = 0 then d else x

/-- The tick validator (src/services/tradierService.ts is identical to
src/unnamed/part_003 lines 86-111, method cleanAndProcessTick): reject on
NaN or non-positive bid/ask, crossed or locked market, or spread above a
quarter of the midpoint; otherwise build the normalized Tick.  The JS
`last || mid` collapses a zero or NaN last price into mid. -/
def cleanAndProcessTick (now : ℤ) (raw : RawQuote) : Option Tick :=
  match raw.bid, raw.ask with
  | some bid, some ask =>
    if bid ≤ 0 ∨ ask ≤ 0 ∨ bid ≥ ask then none
    else
      let mid := (bid + ask) / 2
      let spread := ask - bid
      if spread > mid * (1/4) then none
      else
        let bidVol : ℚ := (raw.bidsize.getD 0 : ℕ)
        let askVol : ℚ := (raw.asksize.getD 0 : ℕ)
        some { time := now
               bid := bid
               ask := ask
               last := match raw.lastPrice with
                       | none => mid
                       | some l => jsOr l mid
               mid := mid
               spread := spread
               volume := bidVol + askVol
               bidVolume := bidVol
               askVolume := askVol }
  | _, _ => none

/-- JS Array.reduce((acc, t) => acc + f(t), 0) over a tick list. -/
def sumBy (f : Tick → ℚ) (l : List Tick) : ℚ := l.foldl (fun acc t => acc + f t) 0

/-- meanMid of calculateWindowLabel: arithmetic mean of the mids
(division by zero for the empty list is JS NaN; in the rational model it
is 0, and every caller passes a non-empty list). -/
def meanMid (ts : List Tick) : ℚ := sumBy (fun t => t.mid) ts / ts.length

/-- avgSpread of calculateWindowLabel: mean of the per-tick spreads. -/
def avgSpread (ts : List Tick) : ℚ := sumBy (fun t => t.spread) ts / ts.length

/-- v10 of calculateWindowLabel: total traded volume of the window. -/
def intensity (ts : List Tick) : ℚ := sumBy (fun t => t.volume) ts

/-- v14 of calculateWindowLabel: total ask-side volume. -/
def askVolTotal (ts : List Tick) : ℚ := sumBy (fun t => t.askVolume) ts

/-- v15 of calculateWindowLabel: total bid-side volume. -/
def bidVolTotal (ts : List Tick) : ℚ := sumBy (fun t => t.bidVolume) ts

/-- variance of calculateWindowLabel: population variance of the mids. -/
def midVariance (ts : List Tick) : ℚ :=
  sumBy (fun t => (t.mid - meanMid ts) ^ 2) ts / ts.length

/-- currentTicks[0] of calculateWindowLabel. -/
def firstTick (ts : List Tick) : Tick := ts.getD 0 defaultTick

/-- currentTicks[currentTicks.length - 1] of calculateWindowLabel. -/
def lastTick (ts : List Tick) : Tick := ts.getD (ts.length - 1) defaultTick

/-- v3 of calculateWindowLabel (src/services/tradierService.ts line 92):
(last.bid - first.ask) / (first.ask || 1). -/
def crossingReturn (ts : List Tick) : ℚ :=
  ((lastTick ts).bid - (firstTick ts).ask) / jsOr (firstTick ts).ask 1

/-- v11_22 of calculateWindowLabel: the JS indexed map
currentTicks.map((t, i) => i > 0 ? t.mid - currentTicks[i-1].mid : 0),
written as a map over the index range. -/
def derivativesOf (ts : List Tick) : List ℚ :=
  (List.range ts.length).map (fun i =>
    if 0 < i then (ts.getD i defaultTick).mid - (ts.getD (i - 1) defaultTick).mid
    else 0)

/-- The hysteresis band of TradierService (field alpha = 1e-5). -/
def alpha : ℚ := 1 / 100000

/-- The ratio of calculateWindowLabel: meanMid / lastWindowMid. -/
def ratioOf (ts : List Tick) (lastWindowMid : ℚ) : ℚ := meanMid ts / lastWindowMid

/-- The label assignment of calculateWindowLabel: STATIONARY overwritten
by UPWARDS when ratio is above 1+alpha, by DOWNWARDS when below 1-alpha. -/
def labelOf (ts : List Tick) (lastWindowMid : ℚ) : TickLabel :=
  if ratioOf ts lastWindowMid > 1 + alpha then TickLabel.UPWARDS
  else if ratioOf ts lastWindowMid < 1 - alpha then TickLabel.DOWNWARDS
  else TickLabel.STATIONARY

/-- advFactor of calculateWindowLabel (src/services/tradierService.ts
line 101). -/
def advFactor : ℚ := 50000000

/-- The raw LIXI score before the display clamp
(src/services/tradierService.ts line 105):
-log10(avgSpread || 0.01) + 0.65 log10(v10 || 1) + 0.4 log10(advFactor). -/
noncomputable def lixiRaw (ts : List Tick) : ℝ :=
  -Real.logb 10 ((jsOr (avgSpread ts) (1/100) : ℚ) : ℝ)
    + 0.65 * Real.logb 10 ((jsOr (intensity ts) 1 : ℚ) : ℝ)
    + 0.4 * Real.logb 10 (advFactor : ℝ)

/-- Feature vector v1-v22 of a TickWindow (src/types.ts). -/
structure Features where
  v1_mid : ℚ
  v2_spread : ℚ
  v3_crossing_return : ℚ
  v9_volatility : ℝ
  v10_intensity : ℚ
  v14_ask_vol : ℚ
  v15_bid_vol : ℚ
  v11_22_derivatives : List ℚ

/-- A completed aggregation window (src/types.ts, interface TickWindow). -/
structure TickWindow where
  id : String
  ticks : List Tick
  meanMid : ℚ
  features : Features
  lixi : ℝ
  label : TickLabel
  ratio : ℚ
  timestamp : String

/-- calculateWindowLabel (src/services/tradierService.ts lines 87-130).
The generated id and the wall-clock timestamp are externalised as
parameters; lixi is clamped by Math.min(lixi, 15). -/
noncomputable def calculateWindowLabel (currentTicks : List Tick)
    (lastWindowMid : ℚ) (wid wtimestamp : String) : TickWindow :=
  { id := wid
    ticks := currentTicks
    meanMid := meanMid currentTicks
    features :=
      { v1_mid := meanMid currentTicks
        v2_spread := avgSpread currentTicks
        v3_crossing_return := crossingReturn currentTicks
        v9_volatility := Real.sqrt ((midVariance currentTicks : ℚ) : ℝ)
        v10_intensity := intensity currentTicks
        v14_ask_vol := askVolTotal currentTicks
        v15_bid_vol := bidVolTotal currentTicks
        v11_22_derivatives := derivativesOf currentTicks }
    lixi := min (lixiRaw currentTicks) 15
    label := labelOf currentTicks lastWindowMid
    ratio := ratioOf currentTicks lastWindowMid
    timestamp := wtimestamp }

@[simp] lemma calculateWindowLabel_ticks (ts : List Tick) (r : ℚ)
    (wid wtm : String) : (calculateWindowLabel ts r wid wtm).ticks = ts := rfl

@[simp] lemma calculateWindowLabel_ratio (ts : List Tick) (r : ℚ)
    (wid wtm : String) :
    (calculateWindowLabel ts r wid wtm).ratio = ratioOf ts r := rfl

@[simp] lemma calculateWindowLabel_label (ts : List Tick) (r : ℚ)
    (wid wtm : String) :
    (calculateWindowLabel ts r wid wtm).label = labelOf ts r := rfl

@[simp] lemma calculateWindowLabel_meanMid (ts : List Tick) (r : ℚ)
    (wid wtm : String) :
    (calculateWindowLabel ts r wid wtm).meanMid = meanMid ts := rfl

/-- Stand-in for the generated id and timestamp strings; no field other
than id and timestamp depends on them. -/
def anonId : String := ""

/-- The synthetic generator tick (src/App.tsx lines 163-182): given the
drifted price, a fixed two-cent spread straddles it and the volumes are
constant.  No validation is applied. -/
def mockTick (newPrice : ℚ) (now : ℤ) : Tick :=
  { time := now
    bid := newPrice - 1/100
    ask := newPrice + 1/100
    last := newPrice
    mid := newPrice
    volume := 100
    bidVolume := 50
    askVolume := 50
    spread := 2/100 }

/-- A polling-fallback feed tick (src/unnamed/part_005 lines 147-166,
hftFeed construction): a sampled spread straddles the noise-perturbed bar
price and the sampled volume is split by the buy/sell skew.  The random
draws (noise, currentSpread, tickVolume, buySellSkew) are externalised as
parameters.  No validation is applied. -/
def hftTick (price noise currentSpread tickVolume buySellSkew : ℚ)
    (now : ℤ) : Tick :=
  { time := now
    bid := (price + noise) - currentSpread / 2
    ask := (price + noise) + currentSpread / 2
    last := price + noise
    mid := price + noise
    volume := tickVolume
    bidVolume := tickVolume * buySellSkew
    askVolume := tickVolume * (1 - buySellSkew)
    spread := currentSpread }

/-- Aggregator state of the streaming path (src/App.tsx): the tick buffer,
the rolling reference midpoint, and the retained window history
(newest first, capped at 20 by slice(0, 20)). -/
structure AggState where
  tickBuffer : List Tick
  lastProcessedMid : ℚ
  windowHistory : List TickWindow

/-- handleNewTick (src/App.tsx lines 68-81): append the tick to the
buffer; once the buffer holds 5 ticks, complete a window over it with
reference midpoint lastProcessedMid || tick.mid, clear the buffer, and
update the rolling midpoint.  Also returns the window emitted by this
step, if any. -/
noncomputable def handleNewTick (s : AggState) (tick : Tick) :
    AggState × Option TickWindow :=
  let newBuffer := s.tickBuffer ++ [tick]
  if 5 ≤ newBuffer.length then
    let w := calculateWindowLabel newBuffer (jsOr s.lastProcessedMid tick.mid)
      anonId anonId
    ({ tickBuffer := []
       lastProcessedMid := w.meanMid
       windowHistory := (w :: s.windowHistory).take 20 }, some w)
  else
    ({ s with tickBuffer := newBuffer }, none)

/-- Runs handleNewTick over an arriving tick sequence from a given state,
collecting the emitted windows in emission order. -/
noncomputable def processFeed : AggState → List Tick → AggState × List TickWindow
  | s, [] => (s, [])
  | s, t :: rest =>
    let step := handleNewTick s t
    let tail := processFeed step.1 rest
    (tail.1, step.2.toList ++ tail.2)

/-- The session-initial aggregator state (src/App.tsx initial useState
values: empty buffer, lastProcessedMid 0, empty history). -/
def initialAggState : AggState :=
  { tickBuffer := [], lastProcessedMid := 0, windowHistory := [] }

/-- A whole streaming session: processFeed from the initial state. -/
noncomputable def runFeed (ticks : List Tick) : AggState × List TickWindow :=
  processFeed initialAggState ticks

/-- The snapshot chunking loop of the polling fallback (src/unnamed/part_005
lines 168-176): walk the feed four ticks at a time; each non-empty chunk
becomes a window whose reference midpoint is the first tick's mid for the
first chunk and the mid of the feed element just before the chunk
otherwise.  The fuel argument bounds the recursion and is initialised to
the feed length, which the loop never exceeds. -/
noncomputable def snapshotLoop : ℕ → List Tick → Option ℚ → List TickWindow
  | 0, _, _ => []
  | _ + 1, [], _ => []
  | fuel + 1, h :: rest, prevMid =>
    let l := h :: rest
    let chunk := l.take 4
    let lastMid := prevMid.getD h.mid
    calculateWindowLabel chunk lastMid anonId anonId ::
      snapshotLoop fuel (l.drop 4) (some ((chunk.getLastD defaultTick).mid))

/-- The windows produced by one polling-fallback refresh over a feed. -/
noncomputable def snapshotWindows (feed : List Tick) : List TickWindow :=
  snapshotLoop feed.length feed none

/-- Modelled from the spec (sections 4.1 and 3): the rejection condition
of the Tick Validator as the spec words it - non-numeric or non-positive
bid or ask, crossed or locked market, or spread above a quarter of the
midpoint.  Stated independently of the source so that
tick_validator_rejects_iff below compares code against spec. -/
def rejectSpec (raw : RawQuote) : Prop :=
  match raw.bid, raw.ask with
  | some bid, some ask =>
    bid ≤ 0 ∨ ask ≤ 0 ∨ ask ≤ bid ∨ ((bid + ask) / 2) * (1/4) < ask - bid
  | _, _ => True

/-- Modelled from the spec (section 3 Tick invariant): the well-formedness
predicate the spec claims for every buffered tick. -/
def tickInvariant (t : Tick) : Prop :=
  0 < t.bid ∧ 0 < t.ask ∧ t.bid < t.ask ∧ t.spread ≤ t.mid * (1/4)

/-- Modelled from the spec (section 4.4): the LIXI formula as the spec
words it, with max-based floors on spread and intensity, at the weights of
the implementation actually imported (0.65 and 0.4). -/
noncomputable def lixiSpecFormula (spread intens : ℚ) : ℝ :=
  -Real.logb 10 ((max spread (1/100) : ℚ) : ℝ)
    + 0.65 * Real.logb 10 ((max intens 1 : ℚ) : ℝ)
    + 0.4 * Real.logb 10 (advFactor : ℝ)

/-! ## Validator lemmas -/

/-- Inversion of the validator: an accepted raw quote has numeric bid and
ask satisfying every check, and the returned tick is the literal the code
builds. -/
lemma cleanAndProcessTick_some_inv (now : ℤ) (raw : RawQuote) (t : Tick)
    (h : cleanAndProcessTick now raw = some t) :
    ∃ bid ask, raw.bid = some bid ∧ raw.ask = some ask ∧
      0 < bid ∧ 0 < ask ∧ bid < ask ∧
      ask - bid ≤ ((bid + ask) / 2) * (1/4) ∧
      t = { time := now
            bid := bid
            ask := ask
            last := match raw.lastPrice with
                    | none => (bid + ask) / 2
                    | some l => jsOr l ((bid + ask) / 2)
            mid := (bid + ask) / 2
            spread := ask - bid
            volume := (raw.bidsize.getD 0 : ℕ) + (raw.asksize.getD 0 : ℕ)
            bidVolume := (raw.bidsize.getD 0 : ℕ)
            askVolume := (raw.asksize.getD 0 : ℕ) } := by
  rcases raw with ⟨bid?, ask?, last?, bs?, as?⟩
  rcases bid? with _ | bid
  · exact absurd h (by simp [cleanAndProcessTick])
  rcases ask? with _ | ask
  · exact absurd h (by simp [cleanAndProcessTick])
  simp only [cleanAndProcessTick] at h
  split_ifs at h with h1 h2
  push_neg at h1 h2
  obtain ⟨hb, ha, hba⟩ := h1
  refine ⟨bid, ask, rfl, rfl, hb, ha, hba, h2, ?_⟩
  exact (Option.some_injective _ h).symm

/-- Rejection characterisation of the validator against the spec
condition. -/
lemma cleanAndProcessTick_none_iff (now : ℤ) (raw : RawQuote) :
    cleanAndProcessTick now raw = none ↔ rejectSpec raw := by
  rcases raw with ⟨bid?, ask?, last?, bs?, as?⟩
  rcases bid? with _ | bid
  · simp [cleanAndProcessTick, rejectSpec]
  rcases ask? with _ | ask
  · simp [cleanAndProcessTick, rejectSpec]
  simp only [cleanAndProcessTick, rejectSpec]
  split_ifs with h1 h2
  · simp only [true_iff]
    rcases h1 with h | h | h
    · exact Or.inl h
    · exact Or.inr (Or.inl h)
    · exact Or.inr (Or.inr (Or.inl h))
  · simp only [true_iff]
    exact Or.inr (Or.inr (Or.inr h2))
  · push_neg at h1 h2
    obtain ⟨hb, ha, hba⟩ := h1
    simp only [reduceCtorEq, false_iff]
    push_neg
    exact ⟨hb, ha, hba, h2⟩

/-- Sample raw quote accepted by the validator, with no last-trade
field. -/
def rawSample : RawQuote :=
  { bid := some 100, ask := some 101, lastPrice := none
    bidsize := some 3, asksize := some 4 }

/-- The tick the validator builds from rawSample. -/
def tickSample : Tick :=
  { time := 0, bid := 100, ask := 101, last := 201/2, mid := 201/2
    volume := 7, bidVolume := 3, askVolume := 4, spread := 1 }

lemma cleanAndProcessTick_rawSample :
    cleanAndProcessTick 0 rawSample = some tickSample := by
  simp only [cleanAndProcessTick, rawSample]
  norm_num [tickSample, Tick.mk.injEq]

/-- Sample raw quote whose last-trade field parses to exactly 0. -/
def rawZeroLast : RawQuote :=
  { bid := some 100, ask := some 101, lastPrice := some 0
    bidsize := some 3, asksize := some 4 }

/-- The tick the validator builds from rawZeroLast: last collapses
to mid. -/
def tickZeroLast : Tick :=
  { time := 0, bid := 100, ask := 101, last := 201/2, mid := 201/2
    volume := 7, bidVolume := 3, askVolume := 4, spread := 1 }

lemma cleanAndProcessTick_rawZeroLast :
    cleanAndProcessTick 0 rawZeroLast = some tickZeroLast := by
  simp only [cleanAndProcessTick, rawZeroLast]
  norm_num [tickZeroLast, jsOr, Tick.mk.injEq]

/-- Sample raw quote whose last-trade field parses to a negative
number. -/
def rawNegLast : RawQuote :=
  { bid := some 100, ask := some 101, lastPrice := some (-5)
    bidsize := some 3, asksize := some 4 }

/-- The tick the validator builds from rawNegLast: the negative last
price is kept. -/
def tickNegLast : Tick :=
  { time := 0, bid := 100, ask := 101, last := -5, mid := 201/2
    volume := 7, bidVolume := 3, askVolume := 4, spread := 1 }

lemma cleanAndProcessTick_rawNegLast :
    cleanAndProcessTick 0 rawNegLast = some tickNegLast := by
  simp only [cleanAndProcessTick, rawNegLast]
  norm_num [tickNegLast, jsOr, Tick.mk.injEq]

/-! ## Claim theorems -/

/-- C1: the tick validator returns none exactly when the parsed bid or
ask is non-numeric or non-positive, or bid is at least ask, or the spread
exceeds a quarter of the midpoint; otherwise it returns a well-formed
Tick.  Rejection is the none value of a total function, never an
error. -/
theorem tick_validator_rejects_iff (now : ℤ) (raw : RawQuote) :
    (cleanAndProcessTick now raw = none ↔ rejectSpec raw) ∧
    (∀ t, cleanAndProcessTick now raw = some t →
      0 < t.bid ∧ 0 < t.ask ∧ t.bid < t.ask ∧
      t.spread ≤ t.mid * (1/4) ∧
      t.mid = (t.bid + t.ask) / 2 ∧ t.spread = t.ask - t.bid) := by
  refine ⟨cleanAndProcessTick_none_iff now raw, fun t h => ?_⟩
  obtain ⟨bid, ask, _, _, hb, ha, hba, hsp, ht⟩ :=
    cleanAndProcessTick_some_inv now raw t h
  subst ht
  exact ⟨hb, ha, hba, hsp, rfl, rfl⟩

/-- Witness for C1: the spec example bid 100, ask 140 (spread 40 above a
quarter of midpoint 120) is rejected, and the accepted sample quote
yields a well-formed tick. -/
theorem tick_validator_rejects_iff_witness :
    cleanAndProcessTick 0
        { bid := some 100, ask := some 140, lastPrice := none
          bidsize := none, asksize := none } = none ∧
      0 < tickSample.bid ∧ 0 < tickSample.ask ∧
      tickSample.bid < tickSample.ask ∧
      tickSample.spread ≤ tickSample.mid * (1/4) ∧
      tickSample.mid = (tickSample.bid + tickSample.ask) / 2 ∧
      tickSample.spread = tickSample.ask - tickSample.bid :=
  ⟨(tick_validator_rejects_iff 0 _).1.mpr (by norm_num [rejectSpec]),
   (tick_validator_rejects_iff 0 rawSample).2 tickSample
     cleanAndProcessTick_rawSample⟩

/-- C8: every accepted tick satisfies mid = (bid+ask)/2 and
spread = ask-bid exactly, and an absent or non-numeric last-trade field
defaults to mid. -/
theorem accepted_tick_mid_spread (now : ℤ) (raw : RawQuote) (t : Tick)
    (h : cleanAndProcessTick now raw = some t) :
    t.mid = (t.bid + t.ask) / 2 ∧ t.spread = t.ask - t.bid ∧
    (raw.lastPrice = none → t.last = t.mid) := by
  obtain ⟨bid, ask, _, _, _, _, _, _, ht⟩ :=
    cleanAndProcessTick_some_inv now raw t h
  subst ht
  refine ⟨rfl, rfl, fun hl => ?_⟩
  simp only [hl]

/-- Witness for C8 at the accepted sample quote with absent last
price. -/
theorem accepted_tick_mid_spread_witness :
    tickSample.mid = (tickSample.bid + tickSample.ask) / 2 ∧
    tickSample.spread = tickSample.ask - tickSample.bid ∧
    (rawSample.lastPrice = none → tickSample.last = tickSample.mid) :=
  accepted_tick_mid_spread 0 rawSample tickSample cleanAndProcessTick_rawSample

/-- C10: a last-trade price parsing to exactly 0 collapses to mid (the
validator cannot distinguish a reported zero from an absent last price),
while a negative parsed last price is kept unchanged. -/
theorem last_zero_collapses_to_mid (now : ℤ) (raw : RawQuote) (t : Tick)
    (h : cleanAndProcessTick now raw = some t) :
    (raw.lastPrice = some 0 → t.last = t.mid) ∧
    (∀ l, raw.lastPrice = some l → l < 0 → t.last = l) := by
  obtain ⟨bid, ask, _, _, _, _, _, _, ht⟩ :=
    cleanAndProcessTick_some_inv now raw t h
  subst ht
  constructor
  · intro hl
    simp [hl, jsOr]
  · intro l hl hneg
    simp only [hl, jsOr, if_neg hneg.ne]

/-- Witness for C10: a quote reporting last 0 yields last = mid, a quote
reporting last -5 keeps -5. -/
theorem last_zero_collapses_to_mid_witness :
    tickZeroLast.last = tickZeroLast.mid ∧ tickNegLast.last = -5 :=
  ⟨(last_zero_collapses_to_mid 0 rawZeroLast tickZeroLast
      cleanAndProcessTick_rawZeroLast).1 rfl,
   (last_zero_collapses_to_mid 0 rawNegLast tickNegLast
      cleanAndProcessTick_rawNegLast).2 (-5) rfl (by norm_num)⟩

lemma alpha_pos : (0 : ℚ) < alpha := by norm_num [alpha]

/-- Trichotomy of the label assignment in terms of the ratio. -/
lemma labelOf_spec (ts : List Tick) (lastWindowMid : ℚ) :
    (labelOf ts lastWindowMid = TickLabel.UPWARDS
        ↔ 1 + alpha < ratioOf ts lastWindowMid) ∧
    (labelOf ts lastWindowMid = TickLabel.DOWNWARDS
        ↔ ratioOf ts lastWindowMid < 1 - alpha) ∧
    (labelOf ts lastWindowMid = TickLabel.STATIONARY
        ↔ 1 - alpha ≤ ratioOf ts lastWindowMid
            ∧ ratioOf ts lastWindowMid ≤ 1 + alpha) := by
  have ha := alpha_pos
  unfold labelOf
  split_ifs with h1 h2
  · refine ⟨iff_of_true rfl h1, iff_of_false (by simp) (by linarith),
      iff_of_false (by simp) ?_⟩
    rintro ⟨-, h⟩
    linarith
  · refine ⟨iff_of_false (by simp) (by linarith),
      iff_of_true rfl h2, iff_of_false (by simp) ?_⟩
    rintro ⟨h, -⟩
    linarith
  · push_neg at h1 h2
    exact ⟨iff_of_false (by simp) (by linarith),
      iff_of_false (by simp) (by linarith),
      iff_of_true rfl ⟨h2, h1⟩⟩

/-- C4: with the hysteresis band alpha = 1e-5, a window is labelled
UPWARDS exactly when its ratio exceeds 1+alpha, DOWNWARDS exactly when it
is below 1-alpha, and STATIONARY otherwise; in particular a window of
mean mid 100.01 against reference mid 100 is labelled UPWARDS. -/
theorem direction_classifier_hysteresis (ts : List Tick)
    (lastWindowMid : ℚ) (wid wtm : String) :
    ((calculateWindowLabel ts lastWindowMid wid wtm).label = TickLabel.UPWARDS
        ↔ 1 + alpha < (calculateWindowLabel ts lastWindowMid wid wtm).ratio) ∧
    ((calculateWindowLabel ts lastWindowMid wid wtm).label = TickLabel.DOWNWARDS
        ↔ (calculateWindowLabel ts lastWindowMid wid wtm).ratio < 1 - alpha) ∧
    ((calculateWindowLabel ts lastWindowMid wid wtm).label = TickLabel.STATIONARY
        ↔ 1 - alpha ≤ (calculateWindowLabel ts lastWindowMid wid wtm).ratio
            ∧ (calculateWindowLabel ts lastWindowMid wid wtm).ratio ≤ 1 + alpha) ∧
    (calculateWindowLabel ts lastWindowMid wid wtm).ratio
        = meanMid ts / lastWindowMid ∧
    (calculateWindowLabel [mockTick (10001/100) 0] 100 wid wtm).label
        = TickLabel.UPWARDS := by
  obtain ⟨h1, h2, h3⟩ := labelOf_spec ts lastWindowMid
  refine ⟨h1, h2, h3, rfl, ?_⟩
  show labelOf [mockTick (10001/100) 0] 100 = TickLabel.UPWARDS
  rw [(labelOf_spec [mockTick (10001/100) 0] 100).1]
  norm_num [ratioOf, meanMid, sumBy, mockTick, alpha]

/-- C9: the window computation is deterministic in the tick list and the
reference midpoint: two runs over identical input differing only in the
generated id and wall-clock timestamp agree on every other field,
including the full feature vector, the (clamped) lixi and the label. -/
theorem window_label_deterministic (ts : List Tick) (lastWindowMid : ℚ)
    (id1 tm1 id2 tm2 : String) :
    (calculateWindowLabel ts lastWindowMid id1 tm1).ticks
        = (calculateWindowLabel ts lastWindowMid id2 tm2).ticks ∧
    (calculateWindowLabel ts lastWindowMid id1 tm1).meanMid
        = (calculateWindowLabel ts lastWindowMid id2 tm2).meanMid ∧
    (calculateWindowLabel ts lastWindowMid id1 tm1).features
        = (calculateWindowLabel ts lastWindowMid id2 tm2).features ∧
    (calculateWindowLabel ts lastWindowMid id1 tm1).lixi
        = (calculateWindowLabel ts lastWindowMid id2 tm2).lixi ∧
    (calculateWindowLabel ts lastWindowMid id1 tm1).label
        = (calculateWindowLabel ts lastWindowMid id2 tm2).label ∧
    (calculateWindowLabel ts lastWindowMid id1 tm1).ratio
        = (calculateWindowLabel ts lastWindowMid id2 tm2).ratio :=
  ⟨rfl, rfl, rfl, rfl, rfl, rfl⟩

lemma logb_ten_pow (n : ℕ) : Real.logb 10 ((10:ℝ) ^ n) = n := by
  rw [Real.logb_pow, Real.logb_self_eq_one (by norm_num), mul_one]

lemma logb_advFactor_lt_eight : Real.logb 10 ((advFactor : ℚ) : ℝ) < 8 := by
  have h : Real.logb 10 ((advFactor : ℚ) : ℝ) < Real.logb 10 ((10:ℝ) ^ (8:ℕ)) := by
    apply Real.logb_lt_logb (by norm_num)
    · norm_num [advFactor]
    · norm_num [advFactor]
  rw [logb_ten_pow] at h
  norm_num at h
  exact h

/-- C3 (amended): whenever the window's average spread is 0 or at least
0.01 and its intensity is 0 or at least 1 (as holds for integer volumes),
the reported lixi equals the spec formula clamped at 15; the code's
JS fallback x || d substitutes d only when x is exactly 0, so below 0.01
the raw average spread itself is used, unlike the spec's max. -/
theorem lixi_clamped_formula (ts : List Tick) (lastWindowMid : ℚ)
    (wid wtm : String)
    (hs : avgSpread ts = 0 ∨ 1/100 ≤ avgSpread ts)
    (hv : intensity ts = 0 ∨ 1 ≤ intensity ts) :
    (calculateWindowLabel ts lastWindowMid wid wtm).lixi
      = min (lixiSpecFormula (avgSpread ts) (intensity ts)) 15 := by
  have h1 : jsOr (avgSpread ts) (1/100) = max (avgSpread ts) (1/100) := by
    rcases hs with h | h
    · simp only [jsOr, if_pos h, h]
      exact (max_eq_right (by norm_num)).symm
    · have hne : avgSpread ts ≠ 0 := by
        intro h0
        rw [h0] at h
        norm_num at h
      simp only [jsOr, if_neg hne]
      exact (max_eq_left h).symm
  have h2 : jsOr (intensity ts) 1 = max (intensity ts) 1 := by
    rcases hv with h | h
    · simp only [jsOr, if_pos h, h]
      exact (max_eq_right (by norm_num)).symm
    · have hne : intensity ts ≠ 0 := by
        intro h0
        rw [h0] at h
        norm_num at h
      simp only [jsOr, if_neg hne]
      exact (max_eq_left h).symm
  show min (lixiRaw ts) 15 = min (lixiSpecFormula (avgSpread ts) (intensity ts)) 15
  rw [lixiRaw, lixiSpecFormula, h1, h2]

/-- Witness for C3 at a two-tick window with average spread 0.02 and
intensity 200. -/
theorem lixi_clamped_formula_witness :
    ((avgSpread [mockTick 100 0, mockTick 101 0] = 0
        ∨ 1/100 ≤ avgSpread [mockTick 100 0, mockTick 101 0]) ∧
     (intensity [mockTick 100 0, mockTick 101 0] = 0
        ∨ 1 ≤ intensity [mockTick 100 0, mockTick 101 0])) ∧
    (calculateWindowLabel [mockTick 100 0, mockTick 101 0] 100 anonId anonId).lixi
      = min (lixiSpecFormula (avgSpread [mockTick 100 0, mockTick 101 0])
          (intensity [mockTick 100 0, mockTick 101 0])) 15 := by
  have hs : avgSpread [mockTick 100 0, mockTick 101 0] = 0
      ∨ 1/100 ≤ avgSpread [mockTick 100 0, mockTick 101 0] :=
    Or.inr (by norm_num [avgSpread, sumBy, mockTick])
  have hv : intensity [mockTick 100 0, mockTick 101 0] = 0
      ∨ 1 ≤ intensity [mockTick 100 0, mockTick 101 0] :=
    Or.inr (by norm_num [intensity, sumBy, mockTick])
  exact ⟨⟨hs, hv⟩, lixi_clamped_formula _ 100 anonId anonId hs hv⟩

/-- A tick with spread 0.005, strictly between 0 and the 0.01 floor of
the spec formula. -/
def narrowTick : Tick :=
  { time := 0, bid := 100 - 1/400, ask := 100 + 1/400, last := 100
    mid := 100, volume := 0, bidVolume := 0, askVolume := 0
    spread := 1/200 }

/-- Counterexample to C3 as stated: on a window of average spread 0.005
the code feeds 0.005 itself into the logarithm (the JS fallback only
replaces an exact 0), so the reported lixi differs from the spec formula
with max(avgSpread, 0.01). -/
theorem lixi_fallback_counterexample :
    (calculateWindowLabel [narrowTick] 100 anonId anonId).lixi
      ≠ min (lixiSpecFormula (avgSpread [narrowTick]) (intensity [narrowTick])) 15 := by
  have hs : avgSpread [narrowTick] = 1/200 := by
    norm_num [avgSpread, sumBy, narrowTick]
  have hv : intensity [narrowTick] = 0 := by
    norm_num [intensity, sumBy, narrowTick]
  have e1 : (calculateWindowLabel [narrowTick] 100 anonId anonId).lixi
      = min (-Real.logb 10 ((1/200 : ℚ) : ℝ)
          + 0.65 * Real.logb 10 ((1 : ℚ) : ℝ)
          + 0.4 * Real.logb 10 ((advFactor : ℚ) : ℝ)) 15 := by
    show min (lixiRaw [narrowTick]) 15 = _
    rw [lixiRaw, hs, hv]
    norm_num [jsOr]
  have e2 : lixiSpecFormula (avgSpread [narrowTick]) (intensity [narrowTick])
      = -Real.logb 10 ((1/100 : ℚ) : ℝ)
          + 0.65 * Real.logb 10 ((1 : ℚ) : ℝ)
          + 0.4 * Real.logb 10 ((advFactor : ℚ) : ℝ) := by
    rw [lixiSpecFormula, hs, hv]
    norm_num
  have hlog1 : Real.logb 10 ((1 : ℚ) : ℝ) = 0 := by
    norm_num
  have h200 : -Real.logb 10 ((1/200 : ℚ) : ℝ) = Real.logb 10 (200 : ℝ) := by
    rw [← Real.logb_inv]
    congr 1
    push_cast
    norm_num
  have h100 : -Real.logb 10 ((1/100 : ℚ) : ℝ) = Real.logb 10 (100 : ℝ) := by
    rw [← Real.logb_inv]
    congr 1
    push_cast
    norm_num
  have hb200 : Real.logb 10 (200 : ℝ) < 3 := by
    have h := Real.logb_lt_logb (b := 10) (by norm_num)
      (show (0:ℝ) < 200 by norm_num) (show (200:ℝ) < (10:ℝ) ^ (3:ℕ) by norm_num)
    rw [logb_ten_pow] at h
    norm_num at h
    exact h
  have hb100 : Real.logb 10 (100 : ℝ) < 3 := by
    have h := Real.logb_lt_logb (b := 10) (by norm_num)
      (show (0:ℝ) < 100 by norm_num) (show (100:ℝ) < (10:ℝ) ^ (3:ℕ) by norm_num)
    rw [logb_ten_pow] at h
    norm_num at h
    exact h
  have hmono : Real.logb 10 ((1/200 : ℚ) : ℝ) < Real.logb 10 ((1/100 : ℚ) : ℝ) := by
    apply Real.logb_lt_logb (by norm_num)
    · push_cast
      norm_num
    · push_cast
      norm_num
  have hadv := logb_advFactor_lt_eight
  have h15a : -Real.logb 10 ((1/200 : ℚ) : ℝ)
      + 0.65 * Real.logb 10 ((1 : ℚ) : ℝ)
      + 0.4 * Real.logb 10 ((advFactor : ℚ) : ℝ) ≤ 15 := by
    rw [hlog1, h200]
    linarith
  have h15b : -Real.logb 10 ((1/100 : ℚ) : ℝ)
      + 0.65 * Real.logb 10 ((1 : ℚ) : ℝ)
      + 0.4 * Real.logb 10 ((advFactor : ℚ) : ℝ) ≤ 15 := by
    rw [hlog1, h100]
    linarith
  rw [e1, e2, min_eq_left h15a, min_eq_left h15b]
  intro heq
  have : Real.logb 10 ((1/200 : ℚ) : ℝ) = Real.logb 10 ((1/100 : ℚ) : ℝ) := by
    linarith
  exact absurd this hmono.ne

/-- The indexed-map form of the derivatives feature is a leading zero
followed by the consecutive mid differences. -/
lemma derivativesOf_eq (ts : List Tick) (h : ts ≠ []) :
    derivativesOf ts
      = 0 :: List.zipWith (fun a b => a - b)
          (ts.map Tick.mid).tail (ts.map Tick.mid) := by
  have hpos : 0 < ts.length := List.length_pos.mpr h
  apply List.ext_getElem
  · simp only [derivativesOf, List.length_map, List.length_range,
      List.length_cons, List.length_zipWith, List.length_tail]
    omega
  · intro i h1 h2
    simp only [derivativesOf, List.getElem_map, List.getElem_range]
    cases i with
    | zero => simp
    | succ j =>
      have hj : j + 1 < ts.length := by
        simpa [derivativesOf] using h1
      simp only [List.getElem_cons_succ, List.getElem_zipWith,
        List.getElem_tail, List.getElem_map]
      rw [List.getD_eq_getElem _ _ hj]
      simp only [Nat.add_sub_cancel]
      rw [List.getD_eq_getElem _ _ (by omega : j < ts.length)]
      simp

/-- C6 (amended): the derivatives feature of a completed window has
length windowSize (not windowSize-1): a leading 0 at index 0 followed by
the windowSize-1 consecutive mid differences. -/
theorem derivatives_shape (ts : List Tick) (lastWindowMid : ℚ)
    (wid wtm : String) (h : ts ≠ []) :
    (calculateWindowLabel ts lastWindowMid wid wtm).features.v11_22_derivatives
      = 0 :: List.zipWith (fun a b => a - b)
          (ts.map Tick.mid).tail (ts.map Tick.mid) ∧
    (calculateWindowLabel ts lastWindowMid wid wtm).features.v11_22_derivatives.length
      = ts.length := by
  have e : (calculateWindowLabel ts lastWindowMid wid wtm).features.v11_22_derivatives
      = derivativesOf ts := rfl
  constructor
  · rw [e, derivativesOf_eq ts h]
  · rw [e]
    simp [derivativesOf]

/-- Witness for C6 at a two-tick window: derivatives [0, 1], length 2. -/
theorem derivatives_shape_witness :
    (calculateWindowLabel [mockTick 100 0, mockTick 101 0] 100 anonId
        anonId).features.v11_22_derivatives
      = 0 :: List.zipWith (fun a b => a - b)
          ([mockTick 100 0, mockTick 101 0].map Tick.mid).tail
          ([mockTick 100 0, mockTick 101 0].map Tick.mid) ∧
    (calculateWindowLabel [mockTick 100 0, mockTick 101 0] 100 anonId
        anonId).features.v11_22_derivatives.length
      = ([mockTick 100 0, mockTick 101 0] : List Tick).length :=
  derivatives_shape [mockTick 100 0, mockTick 101 0] 100 anonId anonId
    (by simp)

/-- Counterexample to C6 as stated: the derivatives of a five-tick window
have length 5, not windowSize-1 = 4 (the code maps over all windowSize
indices, emitting 0 at index 0). -/
theorem derivatives_length_counterexample :
    (calculateWindowLabel [mockTick 100 0, mockTick 101 0, mockTick 102 0,
        mockTick 103 0, mockTick 104 0] 100 anonId
        anonId).features.v11_22_derivatives.length ≠ 5 - 1 := by
  show (derivativesOf [mockTick 100 0, mockTick 101 0, mockTick 102 0,
      mockTick 103 0, mockTick 104 0]).length ≠ 5 - 1
  simp [derivativesOf]

/-- C7 (amended): only the validated live path guarantees the buffered
tick invariant unconditionally.  A synthetic generator tick for drifted
price p satisfies it exactly when p is at least 0.08 (bid positivity
needs p above 0.01 and the spread bound needs 0.02 at most a quarter of
p), and a polling hftFeed tick satisfies it exactly when its sampled
spread s and perturbed mid price + noise satisfy 0 < s and s at most a
quarter of the mid; neither synthetic path runs the validator. -/
theorem tick_source_invariants :
    (∀ (now : ℤ) (raw : RawQuote) (t : Tick),
        cleanAndProcessTick now raw = some t → tickInvariant t) ∧
    (∀ (p : ℚ) (now : ℤ),
        tickInvariant (mockTick p now) ↔ 2/25 ≤ p) ∧
    (∀ (price noise s vol skew : ℚ) (now : ℤ),
        tickInvariant (hftTick price noise s vol skew now)
          ↔ 0 < s ∧ s ≤ (price + noise) * (1/4)) := by
  refine ⟨?_, ?_, ?_⟩
  · intro now raw t h
    obtain ⟨bid, ask, _, _, hb, ha, hba, hsp, ht⟩ :=
      cleanAndProcessTick_some_inv now raw t h
    subst ht
    exact ⟨hb, ha, hba, hsp⟩
  · intro p now
    unfold tickInvariant mockTick
    constructor
    · rintro ⟨h1, -, -, h4⟩
      dsimp only at h1 h4
      linarith
    · intro h
      dsimp only
      refine ⟨by linarith, by linarith, by linarith, by linarith⟩
  · intro price noise s vol skew now
    unfold tickInvariant hftTick
    constructor
    · rintro ⟨h1, -, h3, h4⟩
      dsimp only at h1 h3 h4
      exact ⟨by linarith, h4⟩
    · rintro ⟨h1, h2⟩
      dsimp only
      refine ⟨by linarith, by linarith, by linarith, h2⟩

/-- Witness for C7: the validated sample tick and a synthetic tick at
price 100 both satisfy the invariant. -/
theorem tick_source_invariants_witness :
    tickInvariant tickSample ∧ tickInvariant (mockTick 100 0) :=
  ⟨tick_source_invariants.1 0 rawSample tickSample cleanAndProcessTick_rawSample,
   (tick_source_invariants.2.1 100 0).mpr (by norm_num)⟩

/-- Counterexample to C7 as stated: the synthetic generator bypasses the
validator, and at drifted price 0.005 it hands the aggregation buffer a
tick with negative bid, violating the spec invariant. -/
theorem synthetic_tick_invariant_counterexample :
    ¬ tickInvariant (mockTick (1/200) 0) := by
  unfold tickInvariant mockTick
  rintro ⟨h1, -, -, -⟩
  dsimp only at h1
  linarith

/-- A full buffer of 4 ticks plus the arriving tick completes a window
and clears the buffer. -/
lemma handleNewTick_full (s : AggState) (t : Tick)
    (h : s.tickBuffer.length = 4) :
    handleNewTick s t
      = ({ tickBuffer := []
           lastProcessedMid := (calculateWindowLabel (s.tickBuffer ++ [t])
               (jsOr s.lastProcessedMid t.mid) anonId anonId).meanMid
           windowHistory := ((calculateWindowLabel (s.tickBuffer ++ [t])
               (jsOr s.lastProcessedMid t.mid) anonId anonId)
                 :: s.windowHistory).take 20 },
         some (calculateWindowLabel (s.tickBuffer ++ [t])
           (jsOr s.lastProcessedMid t.mid) anonId anonId)) := by
  simp only [handleNewTick]
  rw [if_pos (by simp [h])]

/-- A buffer below 4 ticks only grows. -/
lemma handleNewTick_grow (s : AggState) (t : Tick)
    (h : s.tickBuffer.length < 4) :
    handleNewTick s t = ({ s with tickBuffer := s.tickBuffer ++ [t] }, none) := by
  simp only [handleNewTick]
  rw [if_neg (by simp only [List.length_append, List.length_cons,
    List.length_nil]; omega)]

/-- Invariant of the streaming aggregator: from any state with room in
the buffer, the emitted windows concatenated with the final buffer
reproduce the initial buffer followed by the arrivals, every emitted
window holds exactly 5 ticks, and the final buffer again has room. -/
lemma processFeed_spec (l : List Tick) : ∀ s : AggState,
    s.tickBuffer.length ≤ 4 →
    (processFeed s l).1.tickBuffer.length ≤ 4 ∧
    ((processFeed s l).2.map TickWindow.ticks).flatten
        ++ (processFeed s l).1.tickBuffer = s.tickBuffer ++ l ∧
    ∀ w ∈ (processFeed s l).2, w.ticks.length = 5 := by
  induction l with
  | nil =>
    intro s hs
    simp [processFeed, hs]
  | cons t rest ih =>
    intro s hs
    by_cases hlen : s.tickBuffer.length = 4
    · simp only [processFeed]
      rw [handleNewTick_full s t hlen]
      obtain ⟨ih1, ih2, ih3⟩ := ih
        { tickBuffer := []
          lastProcessedMid := (calculateWindowLabel (s.tickBuffer ++ [t])
              (jsOr s.lastProcessedMid t.mid) anonId anonId).meanMid
          windowHistory := ((calculateWindowLabel (s.tickBuffer ++ [t])
              (jsOr s.lastProcessedMid t.mid) anonId anonId)
                :: s.windowHistory).take 20 } (by simp)
      refine ⟨ih1, ?_, ?_⟩
      · simp only [Option.toList_some, List.singleton_append, List.map_cons,
          List.flatten_cons, List.append_eq, List.nil_append,
          List.append_assoc]
        rw [ih2]
        simp
      · intro w hw
        simp only [Option.toList_some, List.singleton_append,
          List.mem_cons] at hw
        rcases hw with rfl | hw
        · show (s.tickBuffer ++ [t]).length = 5
          simp [hlen]
        · exact ih3 w hw
    · have hlt : s.tickBuffer.length < 4 := lt_of_le_of_ne hs hlen
      simp only [processFeed]
      rw [handleNewTick_grow s t hlt]
      obtain ⟨ih1, ih2, ih3⟩ := ih { s with tickBuffer := s.tickBuffer ++ [t] }
        (by simp only [List.length_append, List.length_cons,
          List.length_nil]; omega)
      refine ⟨ih1, ?_, ih3⟩
      simp only [Option.toList_none, List.nil_append]
      rw [ih2]
      simp

/-- The chunking loop of the polling fallback partitions the feed: the
windows' tick lists concatenate back to the feed and each window holds
between 1 and 4 ticks. -/
lemma snapshotLoop_spec : ∀ (fuel : ℕ) (l : List Tick) (prevMid : Option ℚ),
    l.length ≤ fuel →
    ((snapshotLoop fuel l prevMid).map TickWindow.ticks).flatten = l ∧
    ∀ w ∈ snapshotLoop fuel l prevMid,
      0 < w.ticks.length ∧ w.ticks.length ≤ 4 := by
  intro fuel
  induction fuel with
  | zero =>
    intro l prev h
    have hl : l = [] := List.length_eq_zero.mp (Nat.le_zero.mp h)
    subst hl
    simp [snapshotLoop]
  | succ n ih =>
    intro l prev h
    rcases l with _ | ⟨hd, rest⟩
    · simp [snapshotLoop]
    · simp only [snapshotLoop]
      have hdrop : ((hd :: rest).drop 4).length ≤ n := by
        simp only [List.length_drop, List.length_cons]
        simp only [List.length_cons] at h
        omega
      obtain ⟨ih1, ih2⟩ := ih ((hd :: rest).drop 4)
        (some ((((hd :: rest).take 4).getLastD defaultTick).mid)) hdrop
      constructor
      · simp only [List.map_cons, List.flatten]
        show (hd :: rest).take 4
            ++ ((snapshotLoop n _ _).map TickWindow.ticks).flatten = hd :: rest
        rw [ih1, List.take_append_drop]
      · intro w hw
        simp only [List.mem_cons] at hw
        rcases hw with rfl | hw
        · show 0 < ((hd :: rest).take 4).length
              ∧ ((hd :: rest).take 4).length ≤ 4
          simp only [List.length_take, List.length_cons]
          omega
        · exact ih2 w hw

/-- C2 (amended): the streaming buffer aggregator emits a window exactly
when the buffer reaches 5 ticks, every window it emits holds exactly 5
ticks, the emitted windows plus the leftover buffer partition the arrival
sequence (so no tick is in two windows), and the buffer is empty right
after an emission.  The polling-fallback chunker also partitions its feed
into windows of at most 4 ticks, but its final window holds the feed
length mod 4 ticks when that is non-zero, fewer than its window size
of 4. -/
theorem window_aggregation_partition :
    (∀ ticks : List Tick,
        (runFeed ticks).1.tickBuffer.length ≤ 4 ∧
        ((runFeed ticks).2.map TickWindow.ticks).flatten
            ++ (runFeed ticks).1.tickBuffer = ticks ∧
        ∀ w ∈ (runFeed ticks).2, w.ticks.length = 5) ∧
    (∀ (s : AggState) (t : Tick), s.tickBuffer.length ≤ 4 →
        (((handleNewTick s t).2 ≠ none) ↔ s.tickBuffer.length = 4) ∧
        ((handleNewTick s t).2 ≠ none → (handleNewTick s t).1.tickBuffer = [])) ∧
    (∀ feed : List Tick,
        ((snapshotWindows feed).map TickWindow.ticks).flatten = feed ∧
        ∀ w ∈ snapshotWindows feed,
          0 < w.ticks.length ∧ w.ticks.length ≤ 4) := by
  refine ⟨?_, ?_, ?_⟩
  · intro ticks
    have h := processFeed_spec ticks initialAggState (by simp [initialAggState])
    simpa [runFeed, initialAggState] using h
  · intro s t hs
    by_cases hlen : s.tickBuffer.length = 4
    · rw [handleNewTick_full s t hlen]
      simp [hlen]
    · have hlt : s.tickBuffer.length < 4 := lt_of_le_of_ne hs hlen
      rw [handleNewTick_grow s t hlt]
      simp [hlen]
  · intro feed
    exact snapshotLoop_spec feed.length feed none le_rfl

/-- Witness for C2: from the empty initial buffer, the first arriving
tick does not emit a window. -/
theorem window_aggregation_partition_witness :
    ((handleNewTick initialAggState (mockTick 100 0)).2 ≠ none
        ↔ initialAggState.tickBuffer.length = 4) ∧
    ∀ w ∈ (runFeed [mockTick 100 0]).2, w.ticks.length = 5 :=
  ⟨(window_aggregation_partition.2.1 initialAggState (mockTick 100 0)
      (by simp [initialAggState])).1,
   (window_aggregation_partition.1 [mockTick 100 0]).2.2⟩

/-- Counterexample to C2 as stated: over a five-tick feed the polling
chunker (window size 4) emits a window of a single tick, so not every
emitted window holds exactly windowSize ticks. -/
theorem snapshot_short_window_counterexample :
    ¬ (∀ w ∈ snapshotWindows [mockTick 100 0, mockTick 101 0,
        mockTick 102 0, mockTick 103 0, mockTick 104 0],
          w.ticks.length = 4) := by
  intro hall
  have hmap : (snapshotWindows [mockTick 100 0, mockTick 101 0,
      mockTick 102 0, mockTick 103 0, mockTick 104 0]).map
        (fun w => w.ticks.length) = [4, 1] := by
    simp [snapshotWindows, snapshotLoop, calculateWindowLabel]
  have h2 : ∀ x ∈ ([4, 1] : List ℕ), x = 4 := by
    rw [← hmap]
    simp only [List.mem_map]
    rintro x ⟨w, hw, rfl⟩
    exact hall w hw
  have h1 := h2 1 (by simp)
  norm_num at h1

/-- C5 (amended): in the streaming aggregator the first window of a
session (lastProcessedMid still 0) takes its reference midpoint from the
mid of the tick that completed the window - the LAST tick of the window,
via lastProcessedMid || tick.mid - not the first tick; in the polling
snapshot chunker the first window does use its first tick's mid. -/
theorem first_window_reference_mid :
    (∀ a b c d e : Tick,
        (runFeed [a, b, c, d, e]).2.map (fun w => w.ratio)
          = [meanMid [a, b, c, d, e] / e.mid]) ∧
    (∀ (t : Tick) (rest : List Tick),
        ∀ w ∈ (snapshotWindows (t :: rest)).take 1,
          w.ratio = meanMid ((t :: rest).take 4) / t.mid) := by
  constructor
  · intro a b c d e
    simp [runFeed, processFeed, handleNewTick, initialAggState, jsOr, ratioOf]
  · intro t rest w hw
    simp only [snapshotWindows, List.length_cons, snapshotLoop,
      Option.getD_none, List.take_succ_cons, List.take_zero,
      List.mem_singleton] at hw
    subst hw
    simp [ratioOf]

/-- Witness for C5: the single window of a one-tick snapshot feed has
ratio meanMid over that tick's own mid. -/
theorem first_window_reference_mid_witness :
    (calculateWindowLabel [mockTick 100 0] ((mockTick 100 0).mid) anonId
        anonId).ratio
      = meanMid (([mockTick 100 0] : List Tick).take 4) / (mockTick 100 0).mid :=
  first_window_reference_mid.2 (mockTick 100 0) []
    (calculateWindowLabel [mockTick 100 0] ((mockTick 100 0).mid) anonId anonId)
    (by simp [snapshotWindows, snapshotLoop])

/-- Counterexample to C5 as stated: a first streaming session window over
mids 100..104 (mean 102) gets ratio 102/104 = 51/52, computed against the
last tick's mid 104, not the claimed 102/100 = 51/50 against the first
tick's mid. -/
theorem first_window_reference_counterexample :
    (runFeed [mockTick 100 0, mockTick 101 0, mockTick 102 0, mockTick 103 0,
        mockTick 104 0]).2.map (fun w => w.ratio) = [51/52] ∧
    meanMid [mockTick 100 0, mockTick 101 0, mockTick 102 0, mockTick 103 0,
        mockTick 104 0]
      / (firstTick [mockTick 100 0, mockTick 101 0, mockTick 102 0,
          mockTick 103 0, mockTick 104 0]).mid = 51/50 ∧
    (51/52 : ℚ) ≠ 51/50 := by
  refine ⟨?_, ?_, by norm_num⟩
  · norm_num [runFeed, processFeed, handleNewTick, initialAggState, jsOr,
      ratioOf, meanMid, sumBy, mockTick]
  · norm_num [meanMid, sumBy, firstTick, mockTick]

end AetherQuant
